import Mathlib

/-!
Shallow embedding of the per-call audio bridge of the n8n voice-agent
repository (Twilio media-stream socket bridged to an ElevenLabs
conversational socket), together with proofs about its behaviour.

The source has several near-duplicate copies of the bridge.  The
definitions below are organised by the copy they embed:

* `JsMap`           — a model of the JavaScript `Map` used for
                      `activeConnections` (set replaces, delete removes,
                      get returns the value or nothing).
* `Doc2Bridge`      — the `/call-stream` handler of the second document of
                      `dist/index.js` (the variant with `isReady`,
                      `audioQueue`, the 50-frame cap and the queued drain).
* `DistClient`      — the `ElevenLabsClient` class of the same document
                      (its agent-socket message handler and its
                      `endConversation`).
* `ServicesClient`  — the `ElevenLabsClient` of
                      `dist/services/elevenlabs.js` (its `endConversation`
                      sends the `conversation-complete` mark), used by the
                      first document's `cleanupConnection`.
* `Doc1Bridge`      — `cleanupConnection` of the first document of
                      `dist/index.js`.

Machine-level effects that have no bearing on the verified properties
(console logging, timers used only for log messages) are not modelled;
every branch of the embedded functions follows the corresponding branch
of the JavaScript.  JavaScript string truthiness (`if (s)`) is modelled
as `s ≠ ""` on a `String`, and optional-chaining lookups as `Option`
values.
-/

namespace VoiceAgent

/-- An opaque base64 audio payload, passed through the bridge untouched. -/
abbrev Payload := String

/-- WebSocket ready states, as exposed by the `ws` library. -/
inductive WSState where
  | CONNECTING
  | OPEN
  | CLOSING
  | CLOSED
deriving DecidableEq, Repr

/-- Abstract socket-closing operations performed on the agent transport
(`ws.close()` resp. `ws.terminate()` in the source). -/
inductive CloseAction where
  | closeWs
  | terminateWs
deriving DecidableEq, Repr

/-- Frames sent on the signaling (Twilio) transport by the bridge. -/
inductive TwilioFrame where
  | media (streamSid : String) (payload : Payload)
  | clear (streamSid : String)
  | mark (streamSid : String) (name : String)
deriving DecidableEq, Repr

/-- Frames sent on the agent (ElevenLabs) transport by the bridge. -/
inductive AgentFrame where
  | pong (event_id : String)
deriving DecidableEq, Repr

/-- JavaScript truthiness of an optionally-present string field:
`undefined` and the empty string are falsy. -/
def jsTruthy : Option String → Bool
  | none => false
  | some s => decide (s ≠ "")

namespace JsMap

/-- Model of `Map.prototype.get`: the value stored under `k`, if present. -/
def get? {α : Type} (m : List (String × α)) (k : String) : Option α :=
  match m with
  | [] => none
  | (k', v) :: rest => if k' = k then some v else get? rest k

/-- Model of `Map.prototype.has`. -/
def has {α : Type} (m : List (String × α)) (k : String) : Bool :=
  (get? m k).isSome

/-- Model of `Map.prototype.set`: replaces the entry under `k` when present,
otherwise appends a fresh entry. -/
def set {α : Type} (m : List (String × α)) (k : String) (v : α) :
    List (String × α) :=
  match m with
  | [] => [(k, v)]
  | (k', v') :: rest =>
      if k' = k then (k, v) :: rest else (k', v') :: set rest k v

/-- Model of `Map.prototype.delete`: removes the entry under `k`. -/
def delete {α : Type} (m : List (String × α)) (k : String) :
    List (String × α) :=
  m.filter (fun kv => kv.1 ≠ k)

end JsMap

namespace Doc2Bridge

/-!
The `/call-stream` WebSocket handler of the second document of
`dist/index.js` (lines 1497-1656): the variant that tracks `isReady`,
queues inbound audio in `audioQueue` while the ElevenLabs connection is
being established, caps the queue at 50 entries dropping the oldest, and
drains it when `startConversation()` resolves.
-/

/-- The fixed queue capacity: `if (connection.audioQueue.length > 50)`. -/
def QUEUE_CAP : Nat := 50

/-- The overflow policy of the media handler: `audioQueue.push(payload)`
followed by `audioQueue.shift()` when the length exceeds `QUEUE_CAP`. -/
def pushCapped (q : List Payload) (p : Payload) : List Payload :=
  let q2 := q ++ [p]
  if q2.length > QUEUE_CAP then q2.tail else q2

/-- The per-session state observable through the handler: whether the
`streamSid` is still in `activeConnections`, the `isReady` flag, and the
`audioQueue`.  (The entry also stores the socket handles and `startTime`;
`startTime` is read only for a log message.) -/
structure SessionState where
  registered : Bool
  isReady : Bool
  audioQueue : List Payload
deriving DecidableEq, Repr

/-- The state just after the `start` handler has stored the connection:
`isReady: false`, `audioQueue: []`. -/
def startedState : SessionState :=
  { registered := true, isReady := false, audioQueue := [] }

/-- Events driving one session's bridge, in the order the Node event loop
delivers them.  Socket frames that fail `JSON.parse` reach the handler's
`catch` block (`malformed`); `agentReady` is the resolution of the
`startConversation()` promise (its `.then`), `connectFailed` its
rejection (the `.catch`). -/
inductive BridgeEvent where
  | media (payload : Option Payload)
  | stop
  | otherEvent
  | malformed
  | agentReady
  | connectFailed
deriving DecidableEq, Repr

/-- One handler invocation.  Returns the new session state and the list of
payloads handed to `elevenLabsClient.sendAudio` (the frames forwarded to
the agent transport). -/
def stepBridge (s : SessionState) : BridgeEvent → SessionState × List Payload
  | .media payload =>
      -- guard `if (payload && activeConnections.has(streamSid))`
      if jsTruthy payload then
        if s.registered then
          if s.isReady then
            -- ready: `connection.elevenLabsClient.sendAudio(payload)`
            (s, [payload.getD ""])
          else
            -- not ready: push, then shift on overflow
            ({ s with audioQueue := pushCapped s.audioQueue (payload.getD "") }, [])
        else (s, [])
      else (s, [])
  | .stop =>
      -- `endConversation()` then `activeConnections.delete(streamSid)`
      if s.registered then ({ s with registered := false }, []) else (s, [])
  | .otherEvent => (s, [])
  | .malformed =>
      -- the handler's catch block logs the parse error and nothing else
      (s, [])
  | .agentReady =>
      -- `.then`: `if (activeConnections.has(streamSid))` set `isReady`,
      -- take the queue, clear it, and `forEach` the payloads to `sendAudio`
      if s.registered then
        ({ s with isReady := true, audioQueue := [] }, s.audioQueue)
      else (s, [])
  | .connectFailed =>
      -- `.catch`: `console.error` and diagnostics only; no cleanup
      (s, [])

/-- Runs a sequence of events, concatenating the agent-bound outputs. -/
def runBridge (s : SessionState) : List BridgeEvent → SessionState × List Payload
  | [] => (s, [])
  | e :: es =>
      let r1 := stepBridge s e
      let r2 := runBridge r1.1 es
      (r2.1, r1.2 ++ r2.2)

/-- A media frame carrying payload `p`. -/
def mediaEv (p : Payload) : BridgeEvent := .media (some p)

/-- The `activeConnections` entry stored by the `start` handler of the
second document of `dist/index.js` (the socket handles are omitted;
`startTime` is `Date.now()` at registration). -/
structure ConnEntry where
  isReady : Bool
  audioQueue : List Payload
  startTime : Nat
deriving DecidableEq, Repr

/-- The `start` event handler's effect on `activeConnections`
(`dist/index.js` second document, lines 1506-1539): after the
`!streamSid || !callSid` guard it unconditionally executes
`activeConnections.set(streamSid, ...)` with a fresh entry. -/
def startHandler (reg : List (String × ConnEntry))
    (streamSid callSid : String) (now : Nat) : List (String × ConnEntry) :=
  if streamSid = "" ∨ callSid = "" then reg
  else JsMap.set reg streamSid
    { isReady := false, audioQueue := [], startTime := now }

/-- A live registry entry standing for an established earlier session:
ready, with one frame still buffered, registered at time 0. -/
def liveEntry : ConnEntry :=
  { isReady := true, audioQueue := ["q1"], startTime := 0 }

end Doc2Bridge

namespace DistClient

/-!
The plain-JS `ElevenLabsClient` class of the second document of
`dist/index.js` (lines 393-645): its agent-socket message handler
(the `switch (message.type)` at lines 478-559) and its
`endConversation` (lines 624-644).
-/

/-- The client fields read or written by the embedded methods. -/
structure ClientState where
  streamSid : String
  isConnected : Bool
  ws : Option WSState
deriving DecidableEq, Repr

/-- The `ping_event` object of an agent `ping` message; `event_id` may be
absent. -/
structure PingEvent where
  event_id : Option String
deriving DecidableEq, Repr

/-- Decoded agent-socket messages, discriminated on `message.type` exactly
as the `switch` does.  `audio` carries the two alternative payload fields
(`message.audio?.chunk` and `message.audio_event?.audio_base_64`). -/
inductive AgentMessage where
  | conversationInitiationMetadata
  | audio (chunk : Option Payload) (audio_base_64 : Option Payload)
  | interruption
  | ping (ping_event : Option PingEvent)
  | agentResponse (text : Option String)
  | userTranscript (text : Option String)
  | unhandledType (ty : String)
deriving DecidableEq, Repr

/-- One invocation of the agent-socket message handler.  Returns the
(unchanged) client state, the frames written to the Twilio socket, and the
frames written back to the agent socket.  No branch of the `switch`
assigns to any field of the client. -/
def handleMessage (st : ClientState) (m : AgentMessage) :
    ClientState × List TwilioFrame × List AgentFrame :=
  match m with
  | .conversationInitiationMetadata => (st, [], [])
  | .audio chunk ab =>
      -- `if (this.streamSid)` then `if (message.audio?.chunk)` else
      -- `if (message.audio_event?.audio_base_64)`
      if st.streamSid ≠ "" then
        if jsTruthy chunk then
          (st, [TwilioFrame.media st.streamSid (chunk.getD "")], [])
        else if jsTruthy ab then
          (st, [TwilioFrame.media st.streamSid (ab.getD "")], [])
        else (st, [], [])
      else (st, [], [])
  | .interruption =>
      -- `if (this.streamSid)` send `{event: "clear", streamSid}`
      if st.streamSid ≠ "" then (st, [TwilioFrame.clear st.streamSid], [])
      else (st, [], [])
  | .ping pe =>
      -- `if (message.ping_event?.event_id)` send the echoing pong
      if jsTruthy (pe.bind PingEvent.event_id) then
        (st, [], [AgentFrame.pong ((pe.bind PingEvent.event_id).getD "")])
      else (st, [], [])
  | .agentResponse _ => (st, [], [])
  | .userTranscript _ => (st, [], [])
  | .unhandledType _ => (st, [], [])

/-- Runs a sequence of agent messages through the handler, concatenating
the outputs on each transport. -/
def runMessages (st : ClientState) :
    List AgentMessage → ClientState × List TwilioFrame × List AgentFrame
  | [] => (st, [], [])
  | m :: ms =>
      let r1 := handleMessage st m
      let r2 := runMessages r1.1 ms
      (r2.1, r1.2.1 ++ r2.2.1, r1.2.2 ++ r2.2.2)

/-- A raw frame arriving on the agent socket: either `JSON.parse`
succeeds and yields a decoded message, or it throws. -/
inductive RawFrame where
  | wellFormed (m : AgentMessage)
  | malformed
deriving DecidableEq, Repr

/-- One invocation of the agent-socket handler on a raw frame.  The whole
handler body is wrapped in try/catch (dist/index.js second document,
lines 478-559), so a frame whose `JSON.parse` throws reaches only the
catch block (lines 556-558), which logs the error and nothing else: no
frame is written to either socket and no client field is assigned. -/
def handleRawMessage (st : ClientState) :
    RawFrame → ClientState × List TwilioFrame × List AgentFrame
  | .wellFormed m => handleMessage st m
  | .malformed => (st, [], [])

/-- Runs a sequence of raw agent-socket frames through the handler,
concatenating the outputs on each transport. -/
def runRawMessages (st : ClientState) :
    List RawFrame → ClientState × List TwilioFrame × List AgentFrame
  | [] => (st, [], [])
  | f :: fs =>
      let r1 := handleRawMessage st f
      let r2 := runRawMessages r1.1 fs
      (r2.1, r1.2.1 ++ r2.2.1, r1.2.2 ++ r2.2.2)

/-- Method `endConversation` of the same class: early-returns when `this.ws` is
already null, otherwise calls `ws.close()` only when the socket is OPEN,
and in the `finally` clause nulls `ws` and clears `isConnected`. -/
def endConversation (c : ClientState) : ClientState × List CloseAction :=
  match c.ws with
  | none => (c, [])
  | some s =>
      ({ c with ws := none, isConnected := false },
        if s = WSState.OPEN then [CloseAction.closeWs] else [])

/-- A connected client for stream `"S1"`, used to instantiate the
universally quantified theorems below at a concrete state. -/
def sampleClient : ClientState :=
  { streamSid := "S1", isConnected := true, ws := some WSState.OPEN }

end DistClient

namespace ServicesClient

/-!
The `ElevenLabsClient` of `dist/services/elevenlabs.js`, whose
`endConversation` (lines 69-114) closes or terminates the agent socket
depending on its ready state and then — if the Twilio socket is still
OPEN — sends the final `conversation-complete` mark frame.
-/

/-- The client fields read or written by `endConversation`; `twilioWs` is
the `readyState` of `this.twilioSocket`. -/
structure ClientState where
  streamSid : String
  ws : Option WSState
  isConnected : Bool
  twilioWs : WSState
deriving DecidableEq, Repr

/-- Method `endConversation`: `close(1000, ...)` when the agent socket is OPEN,
`terminate()` when it is CONNECTING, nothing otherwise; then `ws = null`,
`isConnected = false`; finally the `conversation-complete` mark is sent
iff the Twilio socket's `readyState` is OPEN. -/
def endConversation (c : ClientState) :
    ClientState × List CloseAction × List TwilioFrame :=
  let acts : List CloseAction :=
    match c.ws with
    | none => []
    | some s =>
        if s = WSState.OPEN then [CloseAction.closeWs]
        else if s = WSState.CONNECTING then [CloseAction.terminateWs]
        else []
  let marks : List TwilioFrame :=
    if c.twilioWs = WSState.OPEN then
      [TwilioFrame.mark c.streamSid "conversation-complete"]
    else []
  ({ c with ws := none, isConnected := false }, acts, marks)

end ServicesClient

namespace Doc1Bridge

/-!
Function `cleanupConnection` of the first document of `dist/index.js`
(lines 352-369), which uses the `ServicesClient` (imported there from
`./services/elevenlabs.js`): look the session up in `activeConnections`,
run `endConversation()` on its client, and in the `finally` clause delete
the registry entry.  A missing entry means no work at all.
-/

/-- One invocation of `cleanupConnection(sid)`.  Returns the new registry
and the close/mark work performed by the client teardown. -/
def cleanupConnection
    (reg : List (String × ServicesClient.ClientState)) (sid : String) :
    List (String × ServicesClient.ClientState)
      × List CloseAction × List TwilioFrame :=
  match JsMap.get? reg sid with
  | none => (reg, [], [])
  | some client =>
      let r := ServicesClient.endConversation client
      (JsMap.delete reg sid, r.2.1, r.2.2)

/-- Runs `n` further invocations of `cleanupConnection` for the same id. -/
def iterateCleanup
    (reg : List (String × ServicesClient.ClientState)) (sid : String) :
    Nat → List (String × ServicesClient.ClientState)
      × List CloseAction × List TwilioFrame
  | 0 => (reg, [], [])
  | n + 1 =>
      let r1 := cleanupConnection reg sid
      let r2 := iterateCleanup r1.1 sid n
      (r2.1, r1.2.1 ++ r2.2.1, r1.2.2 ++ r2.2.2)

end Doc1Bridge

/-!
Supporting lemmas.
-/

namespace JsMap

theorem get?_set_self {α : Type} (m : List (String × α)) (k : String)
    (v : α) : get? (set m k v) k = some v := by
  induction m with
  | nil => simp [set, get?]
  | cons kv rest ih =>
      by_cases h : kv.1 = k
      · simp [set, get?, h]
      · simp [set, get?, h, ih]

theorem get?_delete_self {α : Type} (m : List (String × α)) (k : String) :
    get? (delete m k) k = none := by
  induction m with
  | nil => simp [delete, get?]
  | cons kv rest ih =>
      by_cases h : kv.1 = k
      · simpa [delete, get?, h] using ih
      · simpa [delete, get?, h] using ih

end JsMap

namespace Doc2Bridge

theorem length_pushCapped_le (q : List Payload) (p : Payload)
    (h : q.length ≤ QUEUE_CAP) : (pushCapped q p).length ≤ QUEUE_CAP := by
  simp only [pushCapped]
  split
  · simp only [List.length_tail, List.length_append, List.length_singleton]
    omega
  · next h2 =>
      simp only [not_lt, List.length_append, List.length_singleton] at h2 ⊢
      omega

theorem foldl_pushCapped_eq_drop (l q : List Payload)
    (h : q.length ≤ QUEUE_CAP) :
    List.foldl pushCapped q l = (q ++ l).drop ((q ++ l).length - QUEUE_CAP) := by
  induction l generalizing q with
  | nil =>
      have h0 : q.length - QUEUE_CAP = 0 := by omega
      simp [h0]
  | cons p ps ih =>
      rw [List.foldl_cons]
      have hdef : pushCapped q p
          = if (q ++ [p]).length > QUEUE_CAP then (q ++ [p]).tail
            else q ++ [p] := rfl
      by_cases hq : q.length = QUEUE_CAP
      · have hcond : (q ++ [p]).length > QUEUE_CAP := by
          simp only [List.length_append, List.length_singleton]
          omega
        have h1 : pushCapped q p = (q ++ [p]).tail := by
          rw [hdef, if_pos hcond]
        have hlen : ((q ++ [p]).tail).length = QUEUE_CAP := by
          simp only [List.length_tail, List.length_append, List.length_singleton]
          omega
        rw [h1, ih _ (le_of_eq hlen)]
        rw [← List.drop_one, ← List.drop_append_of_le_length (by simp)]
        rw [List.drop_drop]
        have hl : (q ++ [p]) ++ ps = q ++ p :: ps := by
          simp [List.append_assoc]
        rw [hl]
        congr 1
        simp only [List.length_drop, List.length_append, List.length_singleton,
          List.length_cons]
        omega
      · have hlt : q.length < QUEUE_CAP := lt_of_le_of_ne h hq
        have hcond : ¬ ((q ++ [p]).length > QUEUE_CAP) := by
          simp only [not_lt, List.length_append, List.length_singleton]
          omega
        have h1 : pushCapped q p = q ++ [p] := by
          rw [hdef, if_neg hcond]
        have hlen : (q ++ [p]).length ≤ QUEUE_CAP := by
          simp only [List.length_append, List.length_singleton]
          omega
        rw [h1, ih _ hlen]
        have hl : (q ++ [p]) ++ ps = q ++ p :: ps := by
          simp [List.append_assoc]
        rw [hl]

theorem foldl_pushCapped_nil_eq (l : List Payload) :
    List.foldl pushCapped [] l = l.drop (l.length - QUEUE_CAP) := by
  simpa using foldl_pushCapped_eq_drop l [] (by simp [QUEUE_CAP])

theorem runBridge_append (s : SessionState) (es1 es2 : List BridgeEvent) :
    runBridge s (es1 ++ es2) =
      ((runBridge (runBridge s es1).1 es2).1,
        (runBridge s es1).2 ++ (runBridge (runBridge s es1).1 es2).2) := by
  induction es1 generalizing s with
  | nil => simp [runBridge]
  | cons e es ih => simp [runBridge, ih, List.append_assoc]

/-- While the session is registered and not yet ready, a run of media
frames (with truthy payloads) only accumulates in the capped queue and
forwards nothing to the agent. -/
theorem runBridge_queue_phase (pre : List Payload) (s : SessionState)
    (hreg : s.registered = true) (hrdy : s.isReady = false)
    (h : ∀ p ∈ pre, p ≠ "") :
    runBridge s (pre.map mediaEv) =
      ({ s with audioQueue := List.foldl pushCapped s.audioQueue pre }, []) := by
  induction pre generalizing s with
  | nil => simp [runBridge]
  | cons p ps ih =>
      have hp : p ≠ "" := h p (by simp)
      have hstep : stepBridge s (mediaEv p) =
          ({ s with audioQueue := pushCapped s.audioQueue p }, []) := by
        simp [stepBridge, mediaEv, jsTruthy, hp, hreg, hrdy]
      simp only [List.map_cons, runBridge, hstep]
      rw [ih { s with audioQueue := pushCapped s.audioQueue p } hreg hrdy
        (fun x hx => h x (by simp [hx]))]
      simp [List.foldl_cons]

/-- Once ready (and still registered), each media frame with a truthy
payload is forwarded immediately and the state is untouched. -/
theorem runBridge_ready_phase (post : List Payload) (s : SessionState)
    (hreg : s.registered = true) (hrdy : s.isReady = true)
    (h : ∀ p ∈ post, p ≠ "") :
    runBridge s (post.map mediaEv) = (s, post) := by
  induction post generalizing s with
  | nil => simp [runBridge]
  | cons p ps ih =>
      have hp : p ≠ "" := h p (by simp)
      have hstep : stepBridge s (mediaEv p) = (s, [p]) := by
        simp [stepBridge, mediaEv, jsTruthy, hp, hreg, hrdy]
      simp only [List.map_cons, runBridge, hstep]
      rw [ih _ hreg hrdy (fun x hx => h x (by simp [hx]))]
      simp

/-- No single step grows the audio queue beyond the capacity. -/
theorem stepBridge_queue_length (s : SessionState) (e : BridgeEvent)
    (h : s.audioQueue.length ≤ QUEUE_CAP) :
    ((stepBridge s e).1.audioQueue).length ≤ QUEUE_CAP := by
  cases e with
  | media p =>
      simp only [stepBridge]
      split
      · split
        · split
          · exact h
          · exact length_pushCapped_le _ _ h
        · exact h
      · exact h
  | stop =>
      simp only [stepBridge]
      split <;> simpa using h
  | otherEvent => exact h
  | malformed => exact h
  | agentReady =>
      simp only [stepBridge]
      split <;> simp [h]
  | connectFailed => exact h

theorem runBridge_queue_length (s : SessionState) (es : List BridgeEvent)
    (h : s.audioQueue.length ≤ QUEUE_CAP) :
    ((runBridge s es).1.audioQueue).length ≤ QUEUE_CAP := by
  induction es generalizing s with
  | nil => simpa using h
  | cons e es ih =>
      simp only [runBridge]
      exact ih _ (stepBridge_queue_length s e h)

end Doc2Bridge

namespace DistClient

theorem handleMessage_state (st : ClientState) (m : AgentMessage) :
    (handleMessage st m).1 = st := by
  cases m <;> simp only [handleMessage] <;>
    repeat first | rfl | split

theorem runMessages_state (st : ClientState) (ms : List AgentMessage) :
    (runMessages st ms).1 = st := by
  induction ms generalizing st with
  | nil => rfl
  | cons m ms ih =>
      simp only [runMessages]
      rw [ih, handleMessage_state]

theorem runMessages_append (st : ClientState) (ms1 ms2 : List AgentMessage) :
    runMessages st (ms1 ++ ms2)
      = ((runMessages (runMessages st ms1).1 ms2).1,
          (runMessages st ms1).2.1
            ++ (runMessages (runMessages st ms1).1 ms2).2.1,
          (runMessages st ms1).2.2
            ++ (runMessages (runMessages st ms1).1 ms2).2.2) := by
  induction ms1 generalizing st with
  | nil => simp [runMessages]
  | cons m ms ih => simp [runMessages, ih, List.append_assoc]

theorem runRawMessages_append (st : ClientState) (fs1 fs2 : List RawFrame) :
    runRawMessages st (fs1 ++ fs2)
      = ((runRawMessages (runRawMessages st fs1).1 fs2).1,
          (runRawMessages st fs1).2.1
            ++ (runRawMessages (runRawMessages st fs1).1 fs2).2.1,
          (runRawMessages st fs1).2.2
            ++ (runRawMessages (runRawMessages st fs1).1 fs2).2.2) := by
  induction fs1 generalizing st with
  | nil => simp [runRawMessages]
  | cons f fs ih => simp [runRawMessages, ih, List.append_assoc]

end DistClient

namespace Doc1Bridge

theorem cleanup_of_absent
    (reg : List (String × ServicesClient.ClientState)) (sid : String)
    (h : JsMap.get? reg sid = none) :
    cleanupConnection reg sid = (reg, [], []) := by
  simp [cleanupConnection, h]

theorem cleanup_get?_none
    (reg : List (String × ServicesClient.ClientState)) (sid : String) :
    JsMap.get? (cleanupConnection reg sid).1 sid = none := by
  unfold cleanupConnection
  cases hg : JsMap.get? reg sid with
  | none => simpa using hg
  | some c => simp [JsMap.get?_delete_self]

theorem iterateCleanup_absent
    (reg : List (String × ServicesClient.ClientState)) (sid : String)
    (h : JsMap.get? reg sid = none) :
    ∀ n, iterateCleanup reg sid n = (reg, [], []) := by
  intro n
  induction n with
  | zero => rfl
  | succ n ih =>
      simp [iterateCleanup, cleanup_of_absent reg sid h, ih]

end Doc1Bridge

/-!
Claim theorems.
-/

namespace Doc2Bridge

/-- C1: for every sequence of inbound media frames arriving before the
agent connection becomes ready, the frames forwarded to the agent after
readiness equal the queued frames in original arrival order, followed by
the frames arriving after readiness, with no duplication and no
reordering (the queued frames are a suffix of the pre-ready arrivals);
the queue is drained exactly once upon readiness (the resulting queue is
empty) and never used again (a media frame handled with `isReady` set
leaves the queue untouched). -/
theorem claim_C1_fifo_drain (pre post : List Payload)
    (h1 : ∀ p ∈ pre, p ≠ "") (h2 : ∀ p ∈ post, p ≠ "") :
    (runBridge startedState
        (pre.map mediaEv ++ BridgeEvent.agentReady :: post.map mediaEv)
      = ({ registered := true, isReady := true, audioQueue := [] },
          List.foldl pushCapped [] pre ++ post))
    ∧ List.foldl pushCapped [] pre <:+ pre
    ∧ (∀ (s : SessionState) (p : Option Payload), s.isReady = true →
        (stepBridge s (BridgeEvent.media p)).1.audioQueue = s.audioQueue) := by
  refine ⟨?_, ?_, ?_⟩
  · rw [runBridge_append, runBridge_queue_phase pre startedState rfl rfl h1]
    simp only [startedState]
    have hstep : stepBridge
        { registered := true, isReady := false,
          audioQueue := List.foldl pushCapped [] pre }
        BridgeEvent.agentReady
        = ({ registered := true, isReady := true, audioQueue := [] },
            List.foldl pushCapped [] pre) := by
      simp [stepBridge]
    have hready := runBridge_ready_phase post
      { registered := true, isReady := true, audioQueue := [] } rfl rfl h2
    simp [runBridge, hstep, hready]
  · rw [foldl_pushCapped_nil_eq]
    exact List.drop_suffix _ _
  · intro s p hrdy
    simp only [stepBridge]
    split
    · split
      · simp [hrdy]
      · rfl
    · rfl

/-- C1 witness: three frames queued before readiness, one after. -/
theorem claim_C1_fifo_drain_witness :
    runBridge startedState
        (["a", "b", "c"].map mediaEv
          ++ BridgeEvent.agentReady :: ["d"].map mediaEv)
      = ({ registered := true, isReady := true, audioQueue := [] },
          List.foldl pushCapped [] ["a", "b", "c"] ++ ["d"]) :=
  (claim_C1_fifo_drain ["a", "b", "c"] ["d"] (by decide) (by decide)).1

/-- C3: the pending queue never exceeds the 50-frame capacity on any
event sequence, and a pre-ready run of media frames leaves in the queue
exactly the most recent frames in arrival order (only the oldest are
dropped once the capacity is exceeded). -/
theorem claim_C3_queue_bound :
    (∀ es : List BridgeEvent,
        ((runBridge startedState es).1.audioQueue).length ≤ QUEUE_CAP)
    ∧ (∀ pre : List Payload, (∀ p ∈ pre, p ≠ "") →
        (runBridge startedState (pre.map mediaEv)).1.audioQueue
          = pre.drop (pre.length - QUEUE_CAP)) := by
  constructor
  · intro es
    exact runBridge_queue_length startedState es (by simp [startedState, QUEUE_CAP])
  · intro pre h
    rw [runBridge_queue_phase pre startedState rfl rfl h]
    simpa using foldl_pushCapped_nil_eq pre

/-- C3 witness: 55 frames queued before readiness leave the last 50. -/
theorem claim_C3_queue_bound_witness :
    (runBridge startedState
        ((List.replicate 55 "x").map mediaEv)).1.audioQueue
      = (List.replicate 55 "x").drop
          ((List.replicate 55 "x").length - QUEUE_CAP) :=
  claim_C3_queue_bound.2 (List.replicate 55 "x") (by decide)

/-- C4 counterexample: after `session-start` for a session followed by two
media frames and a connect failure, the session is still registered — the
`.catch` handler of `startConversation()` only logs, so the claim that the
session is removed from the Registry on connect failure is false on this
code. -/
theorem claim_C4_counterexample :
    ¬ ((runBridge startedState
          [mediaEv "f1", mediaEv "f2", BridgeEvent.connectFailed]).1.registered
        = false) := by
  decide

/-- C4 amended: if the agent connection attempt fails or times out, the
failure is only logged: the session stays in the Registry and never
becomes ready, and the media frames received before (and after) the
failure are never delivered to the agent transport — they merely
accumulate in the capped queue until a stop or close event cleans up. -/
theorem claim_C4_failure_keeps_session (pre post : List Payload)
    (h1 : ∀ p ∈ pre, p ≠ "") (h2 : ∀ p ∈ post, p ≠ "") :
    runBridge startedState
        (pre.map mediaEv ++ BridgeEvent.connectFailed :: post.map mediaEv)
      = ({ registered := true, isReady := false,
            audioQueue := List.foldl pushCapped [] (pre ++ post) }, []) := by
  rw [runBridge_append, runBridge_queue_phase pre startedState rfl rfl h1]
  simp only [startedState]
  have hstep : stepBridge
      { registered := true, isReady := false,
        audioQueue := List.foldl pushCapped [] pre }
      BridgeEvent.connectFailed
      = ({ registered := true, isReady := false,
            audioQueue := List.foldl pushCapped [] pre }, []) := rfl
  have hpost := runBridge_queue_phase post
    { registered := true, isReady := false,
      audioQueue := List.foldl pushCapped [] pre } rfl rfl h2
  simp [runBridge, hstep, hpost, List.foldl_append]

/-- C4 witness: two frames before the connect failure stay queued and are
never forwarded. -/
theorem claim_C4_failure_keeps_session_witness :
    runBridge startedState
        (["f1", "f2"].map mediaEv
          ++ BridgeEvent.connectFailed :: ([] : List Payload).map mediaEv)
      = ({ registered := true, isReady := false,
            audioQueue := List.foldl pushCapped [] (["f1", "f2"] ++ []) }, []) :=
  claim_C4_failure_keeps_session ["f1", "f2"] [] (by decide) (by decide)

/-- C8: a malformed (non-parseable) frame on either transport reaches
only that handler's catch block: it changes no state, emits no frame on
either socket, and the run over any surrounding frames — on the
signaling side and on the agent side alike — is the same as if the
malformed frame had never arrived, so subsequent well-formed frames are
processed normally. -/
theorem claim_C8_malformed_frame (s : SessionState)
    (pre post : List BridgeEvent) (st : DistClient.ClientState)
    (fs1 fs2 : List DistClient.RawFrame) :
    stepBridge s BridgeEvent.malformed = (s, [])
    ∧ runBridge s (pre ++ BridgeEvent.malformed :: post)
        = runBridge s (pre ++ post)
    ∧ DistClient.handleRawMessage st DistClient.RawFrame.malformed
        = (st, [], [])
    ∧ DistClient.runRawMessages st
          (fs1 ++ DistClient.RawFrame.malformed :: fs2)
        = DistClient.runRawMessages st (fs1 ++ fs2) := by
  refine ⟨rfl, ?_, rfl, ?_⟩
  · rw [runBridge_append, runBridge_append]
    simp [runBridge, stepBridge]
  · rw [DistClient.runRawMessages_append, DistClient.runRawMessages_append]
    simp [DistClient.runRawMessages, DistClient.handleRawMessage]

/-- C2 counterexample: a `start` event for a `streamSid` already present
in `activeConnections` is not rejected — `activeConnections.set` replaces
the live entry with a fresh one, so the existing session's state does not
survive the duplicate registration. -/
theorem claim_C2_counterexample :
    ¬ (JsMap.get? (startHandler [("S1", liveEntry)] "S1" "CA2" 7) "S1"
        = some liveEntry) := by
  decide

/-- C2 amended: a `session-start` whose `streamSid` is already present in
the Registry overwrites the live entry unconditionally: after the handler
runs, the Registry maps the id to a fresh entry (`isReady = false`, empty
queue, new start time) — there is no duplicate check, no rejection, and
the previous session's state is replaced. -/
theorem claim_C2_duplicate_start_overwrites
    (reg : List (String × ConnEntry)) (streamSid callSid : String)
    (now : Nat) (h1 : streamSid ≠ "") (h2 : callSid ≠ "") :
    JsMap.get? (startHandler reg streamSid callSid now) streamSid
      = some { isReady := false, audioQueue := [], startTime := now } := by
  simp only [startHandler]
  rw [if_neg (by simp [h1, h2])]
  exact JsMap.get?_set_self reg streamSid _

/-- C2 witness: the duplicate registration for `"S1"` yields the fresh
entry in place of the live one. -/
theorem claim_C2_duplicate_start_overwrites_witness :
    JsMap.get? (startHandler [("S1", liveEntry)] "S1" "CA2" 7) "S1"
      = some { isReady := false, audioQueue := [], startTime := 7 } :=
  claim_C2_duplicate_start_overwrites [("S1", liveEntry)] "S1" "CA2" 7
    (by decide) (by decide)

end Doc2Bridge

namespace Doc1Bridge

/-- C5: teardown is idempotent.  After the first `cleanupConnection(sid)`
(which removes the registry entry and runs the client teardown), a second
invocation — and any further number of invocations — finds no entry,
performs no close work, emits no frame, and leaves the registry unchanged;
independently, `endConversation` of the dist client is idempotent: a
second call finds `ws` already null and does nothing. -/
theorem claim_C5_idempotent_teardown
    (reg : List (String × ServicesClient.ClientState)) (sid : String)
    (n : Nat) (c : DistClient.ClientState) :
    (cleanupConnection (cleanupConnection reg sid).1 sid
        = ((cleanupConnection reg sid).1, [], []))
    ∧ (iterateCleanup (cleanupConnection reg sid).1 sid n
        = ((cleanupConnection reg sid).1, [], []))
    ∧ (DistClient.endConversation (DistClient.endConversation c).1
        = ((DistClient.endConversation c).1, [])) := by
  refine ⟨?_, ?_, ?_⟩
  · exact cleanup_of_absent _ _ (cleanup_get?_none reg sid)
  · exact iterateCleanup_absent _ _ (cleanup_get?_none reg sid) n
  · cases hws : c.ws <;> simp [DistClient.endConversation, hws]

end Doc1Bridge

namespace DistClient

/-- C6: a `ping` message whose `ping_event.event_id` is present (and
truthy) produces exactly one `pong` echoing that `event_id` on the agent
transport, no frame on the signaling transport, and no state change. -/
theorem claim_C6_ping_pong (st : ClientState) (eid : String)
    (h : eid ≠ "") :
    handleMessage st (AgentMessage.ping (some { event_id := some eid }))
      = (st, [], [AgentFrame.pong eid]) := by
  simp [handleMessage, jsTruthy, h]

/-- C6 witness: the spec's `event_id = "abc123"` example. -/
theorem claim_C6_ping_pong_witness :
    handleMessage sampleClient
        (AgentMessage.ping (some { event_id := some "abc123" }))
      = (sampleClient, [], [AgentFrame.pong "abc123"]) :=
  claim_C6_ping_pong sampleClient "abc123" (by decide)

/-- C7: an `interruption` message produces exactly one `clear` control
frame (carrying the session's `streamSid`) on the signaling transport and
nothing else; and in any run of agent messages around one interruption,
every signaling-side frame caused by a message received before the
interruption appears strictly before the `clear`, every one caused by a
later message strictly after it. -/
theorem claim_C7_interrupt_clear (st : ClientState)
    (ms1 ms2 : List AgentMessage) (h : st.streamSid ≠ "") :
    handleMessage st AgentMessage.interruption
      = (st, [TwilioFrame.clear st.streamSid], [])
    ∧ (runMessages st (ms1 ++ AgentMessage.interruption :: ms2)).2.1
        = (runMessages st ms1).2.1
          ++ TwilioFrame.clear st.streamSid :: (runMessages st ms2).2.1 := by
  have hint : handleMessage st AgentMessage.interruption
      = (st, [TwilioFrame.clear st.streamSid], []) := by
    simp [handleMessage, h]
  refine ⟨hint, ?_⟩
  rw [runMessages_append]
  simp only [runMessages_state]
  simp [runMessages, hint]

/-- C7 witness: one audio frame in flight before the interrupt, one
after. -/
theorem claim_C7_interrupt_clear_witness :
    (runMessages sampleClient
        ([AgentMessage.audio (some "x") none]
          ++ AgentMessage.interruption
            :: [AgentMessage.audio (some "y") none])).2.1
      = (runMessages sampleClient [AgentMessage.audio (some "x") none]).2.1
        ++ TwilioFrame.clear sampleClient.streamSid
          :: (runMessages sampleClient
              [AgentMessage.audio (some "y") none]).2.1 :=
  (claim_C7_interrupt_clear sampleClient
    [AgentMessage.audio (some "x") none]
    [AgentMessage.audio (some "y") none] (by decide)).2

/-- C10: a `ping` lacking `ping_event.event_id` (including a ping with no
`ping_event` object at all) produces no pong, no other outbound frame and
no state change; and a pong is emitted only when the `event_id` field is
present. -/
theorem claim_C10_ping_without_event_id (st : ClientState)
    (pe : Option PingEvent)
    (h : pe.bind PingEvent.event_id = none) :
    handleMessage st (AgentMessage.ping pe) = (st, [], [])
    ∧ ∀ pe' : Option PingEvent,
        (handleMessage st (AgentMessage.ping pe')).2.2 ≠ [] →
          ∃ eid, pe'.bind PingEvent.event_id = some eid := by
  constructor
  · simp [handleMessage, h, jsTruthy]
  · intro pe' hne
    cases hopt : pe'.bind PingEvent.event_id with
    | none =>
        exfalso
        apply hne
        simp [handleMessage, hopt, jsTruthy]
    | some eid => exact ⟨eid, rfl⟩


/-- C10 witness: a ping with no `ping_event` object produces nothing. -/
theorem claim_C10_ping_without_event_id_witness :
    handleMessage sampleClient (AgentMessage.ping none)
      = (sampleClient, [], []) :=
  (claim_C10_ping_without_event_id sampleClient none rfl).1

end DistClient

namespace ServicesClient

/-- C9: `endConversation` sends exactly one `conversation-complete` mark
frame to the signaling transport when the Twilio socket is still OPEN and
none otherwise, and in either case leaves the agent socket handle null
and the client disconnected. -/
theorem claim_C9_completion_mark (c : ClientState) :
    (endConversation c).2.2
      = (if c.twilioWs = WSState.OPEN
          then [TwilioFrame.mark c.streamSid "conversation-complete"]
          else [])
    ∧ (endConversation c).1.ws = none
    ∧ (endConversation c).1.isConnected = false := by
  refine ⟨rfl, rfl, rfl⟩

end ServicesClient

end VoiceAgent
